import Mathlib

/-!
Shallow embedding of the `mat_lib` matrix library (dense, diagonal and
sparse storage representations) together with proofs about its element
access and arithmetic operations.

The entry type of the library (`type Entry = f32`) is idealized as the
exact rationals `ℚ`; usize indices are idealized as `Nat`.  All structure
(index arithmetic, bound checks, storage layout, padding, map semantics)
is translated directly from the source files.
-/

namespace MatLib

/-- The scalar entry type (`type Entry = f32` in the source, idealized as ℚ). -/
abbrev Entry := ℚ

/-- Result of running code that may panic (Rust `todo!()` / `panic!`-style
aborts) instead of returning a value. -/
inductive PanicOr (α : Type) where
  | ok (val : α)
  | panic (msg : String)
deriving DecidableEq

/-- Whether a `PanicOr` result is a panic (a crash, not a branchable value). -/
def PanicOr.isPanic {α : Type} : PanicOr α → Bool
  | .panic _ => true
  | .ok _ => false

/-- `Vec::resize(sz, fill)`: truncate to `sz` if longer, pad with `fill` if
shorter. -/
def listResize {α : Type} (l : List α) (sz : Nat) (fill : α) : List α :=
  l.take sz ++ List.replicate (sz - l.length) fill

/-! ## Dense matrices (`src/mats/dense/mat.rs`)

`struct Dense { data: Vec<Entry>, n: usize, m: usize }`, row-major flat
storage. -/

structure Dense where
  data : List Entry
  n : Nat
  m : Nat
deriving DecidableEq

namespace Dense

/-- `Dense::zeros(n, m)`: `data = vec![0.0; n * m]`. -/
def zeros (n m : Nat) : Dense :=
  ⟨List.replicate (n * m) 0, n, m⟩

/-- `Dense::get(idx @ (i, j))`: `self.data.get(i * self.m + j)` (the source
performs no per-coordinate bound check, only the flat-index lookup). -/
def get (mat : Dense) (idx : Nat × Nat) : Option Entry :=
  mat.data.get? (idx.1 * mat.m + idx.2)

/-- `Dense::get_mut(idx @ (i, j))`: `self.data.get_mut(i * self.m + j)`;
modelled by the value the returned mutable reference points at. -/
def get_mut (mat : Dense) (idx : Nat × Nat) : Option Entry :=
  mat.data.get? (idx.1 * mat.m + idx.2)

/-- `Dense::set(idx, val)`: `self.get_mut(idx).map(|num| mem::replace(num, val))`.
Returns the previous value together with the updated matrix. -/
def set (mat : Dense) (idx : Nat × Nat) (val : Entry) : Option Entry × Dense :=
  match mat.get_mut idx with
  | none => (none, mat)
  | some prev => (some prev, { mat with data := mat.data.set (idx.1 * mat.m + idx.2) val })

/-- `Dense::shape()`: `(self.n, self.m)`. -/
def shape (mat : Dense) : Nat × Nat :=
  (mat.n, mat.m)

/-- `Dense::is_square()`: `n == m`. -/
def is_square (mat : Dense) : Bool :=
  decide (mat.n = mat.m)

/-- `Dense::reshape(shape @ (n, m))`: `self.data.resize(n * m, 0.0)` then the
shape fields are overwritten. -/
def reshape (mat : Dense) (shape : Nat × Nat) : Dense :=
  ⟨listResize mat.data (shape.1 * shape.2) 0, shape.1, shape.2⟩

/-- `Dense::apply(f)`: `self.data.iter_mut().for_each(|e| *e = f(*e))`. -/
def apply (mat : Dense) (f : Entry → Entry) : Dense :=
  { mat with data := mat.data.map f }

/-- `Dense::scalar_mul(rhs)`: `self.apply(|e| e * rhs)`. -/
def scalar_mul (mat : Dense) (rhs : Entry) : Dense :=
  mat.apply (fun e => e * rhs)

/-- `Dense::det()`: `todo!()` — always panics. -/
def det (_ : Dense) : PanicOr (Option Entry) :=
  .panic "not yet implemented"

/-- `Dense::inv()`: `todo!()` — always panics. -/
def inv (_ : Dense) : PanicOr (Option Dense) :=
  .panic "not yet implemented"

end Dense

/-! ## Diagonal matrices (`src/mats/diag/mat.rs`)

`struct Diag { data: Vec<Entry>, n: usize, m: usize }`, storing only the
main diagonal (`data.len() == min(n, m)` for every constructed matrix). -/

structure Diag where
  data : List Entry
  n : Nat
  m : Nat
deriving DecidableEq

namespace Diag

/-- `Diag::ident(n)`: `data = vec![1.0; n]`, shape `(n, n)`. -/
def ident (n : Nat) : Diag :=
  ⟨List.replicate n 1, n, n⟩

/-- `Diag::zeros(n, m)`: `data = vec![0.0; n.min(m)]`. -/
def zeros (n m : Nat) : Diag :=
  ⟨List.replicate (min n m) 0, n, m⟩

/-- `Diag::from(shape @ (n, m), elems)`: errors when `elems.len() > min(n, m)`,
otherwise pads `elems` with zeros up to length `min(n, m)`.  (`from` is a
Lean keyword, hence the name `fromElems`.) -/
def fromElems (shape : Nat × Nat) (elems : List Entry) : Except String Diag :=
  if elems.length > min shape.1 shape.2 then
    .error "Invalid quantity of elements"
  else
    .ok ⟨elems ++ List.replicate (min shape.1 shape.2 - elems.length) 0, shape.1, shape.2⟩

/-- `Diag::get(idx @ (i, j))`:
`self.data.get(i).map(|num| if i == j { num } else { &0.0 })` — the source
checks only `i < data.len()` and never compares `j` against the shape. -/
def get (mat : Diag) (idx : Nat × Nat) : Option Entry :=
  (mat.data.get? idx.1).map (fun num => if idx.1 = idx.2 then num else 0)

/-- `Diag::get_mut(idx @ (i, j))`: `if i == j { self.data.get_mut(i) } else { None }`;
modelled by the value the returned mutable reference points at. -/
def get_mut (mat : Diag) (idx : Nat × Nat) : Option Entry :=
  if idx.1 = idx.2 then mat.data.get? idx.1 else none

/-- `Diag::set(idx, val)`: `self.get_mut(idx).map(|num| mem::replace(num, val))`. -/
def set (mat : Diag) (idx : Nat × Nat) (val : Entry) : Option Entry × Diag :=
  match mat.get_mut idx with
  | none => (none, mat)
  | some prev => (some prev, { mat with data := mat.data.set idx.1 val })

/-- `Diag::shape()`: `(self.n, self.m)`. -/
def shape (mat : Diag) : Nat × Nat :=
  (mat.n, mat.m)

/-- `Diag::is_square()`: `n == m`. -/
def is_square (mat : Diag) : Bool :=
  decide (mat.n = mat.m)

/-- `Diag::reshape(shape @ (n, m))`: `self.data.resize(n.min(m), 0.0)` then the
shape fields are overwritten. -/
def reshape (mat : Diag) (shape : Nat × Nat) : Diag :=
  ⟨listResize mat.data (min shape.1 shape.2) 0, shape.1, shape.2⟩

/-- `Diag::apply(f)`: `self.data.iter_mut().for_each(|e| *e = f(*e))`. -/
def apply (mat : Diag) (f : Entry → Entry) : Diag :=
  { mat with data := mat.data.map f }

/-- `Diag::scalar_mul(rhs)`: `self.apply(|e| e * rhs)`. -/
def scalar_mul (mat : Diag) (rhs : Entry) : Diag :=
  mat.apply (fun e => e * rhs)

/-- `Diag::det()`: `None` if not square, otherwise
`self.data.iter().fold(1.0, |a, b| a * b)`. -/
def det (mat : Diag) : Option Entry :=
  if !mat.is_square then none
  else some (mat.data.foldl (fun a b => a * b) 1)

/-- `Diag::inv()`: `None` if not square, otherwise
`self.apply(|e| if e != 0.0 { 1.0 / e } else { 0.0 })` in place. -/
def inv (mat : Diag) : Option Diag :=
  if !mat.is_square then none
  else some (mat.apply (fun e => if e ≠ 0 then 1 / e else 0))

end Diag

/-! ## Sparse matrices (`src/mats/sparse/mat.rs`)

`struct Sparse<T, const N: usize, const M: usize> { data: BTreeMap<(usize,usize), T>, zero: T }`.
The `BTreeMap` is modelled as an association list where insertion replaces
an existing binding in place.  The `SparseImplTraits` bound
(`From<u8> + Copy + Mul`) is modelled by the `FromU8` class plus `Mul`. -/

/-- The `From<u8>` half of the `SparseImplTraits` bound: conversion from a
small unsigned integer, used by the source only as `T::from(0)`. -/
class FromU8 (T : Type) where
  fromU8 : Nat → T

instance : FromU8 Entry := ⟨fun k => (k : ℚ)⟩

/-- `BTreeMap::get`: look up a key in the association list. -/
def mapLookup {T : Type} (data : List ((Nat × Nat) × T)) (key : Nat × Nat) : Option T :=
  match data with
  | [] => none
  | kv :: rest => if kv.1 = key then some kv.2 else mapLookup rest key

/-- `BTreeMap::insert`: replace the binding for `key` if present, otherwise
add one; returns the previous value paired with the updated map. -/
def mapInsert {T : Type} (data : List ((Nat × Nat) × T)) (key : Nat × Nat) (val : T) :
    Option T × List ((Nat × Nat) × T) :=
  match data with
  | [] => (none, [(key, val)])
  | kv :: rest =>
    if kv.1 = key then (some kv.2, (key, val) :: rest)
    else ((mapInsert rest key val).1, kv :: (mapInsert rest key val).2)

/-- `BTreeMap::values_mut` + `for_each`: apply `f` to every stored value. -/
def mapValues {T : Type} (f : T → T) (data : List ((Nat × Nat) × T)) :
    List ((Nat × Nat) × T) :=
  data.map (fun kv => (kv.1, f kv.2))

structure Sparse (T : Type) (N M : Nat) where
  data : List ((Nat × Nat) × T)
  zero : T
deriving DecidableEq

namespace Sparse

/-- `Sparse::zeros()`: empty map, `zero = T::from(0)`. -/
def zeros {T : Type} [FromU8 T] {N M : Nat} : Sparse T N M :=
  ⟨[], FromU8.fromU8 0⟩

/-- `Sparse::is_in_range((i, j))`: `i < N && j < M`. -/
def is_in_range {T : Type} {N M : Nat} (_ : Sparse T N M) (idx : Nat × Nat) : Bool :=
  decide (idx.1 < N) && decide (idx.2 < M)

/-- `Sparse::get(idx)`: `None` when out of range, otherwise the mapped value
or a reference to the shared `zero` field. -/
def get {T : Type} {N M : Nat} (mat : Sparse T N M) (idx : Nat × Nat) : Option T :=
  if !mat.is_in_range idx then none
  else
    match mapLookup mat.data idx with
    | some v => some v
    | none => some mat.zero

/-- `Sparse::get_mut(idx)`: `None` when out of range, otherwise
`self.data.entry(idx).or_insert(T::from(0))` — a handle to the (possibly
freshly materialized) slot; modelled as the current value at the slot paired
with the updated matrix. -/
def get_mut {T : Type} [FromU8 T] {N M : Nat} (mat : Sparse T N M) (idx : Nat × Nat) :
    Option (T × Sparse T N M) :=
  if !mat.is_in_range idx then none
  else
    match mapLookup mat.data idx with
    | some v => some (v, mat)
    | none =>
      some (FromU8.fromU8 0, { mat with data := (mapInsert mat.data idx (FromU8.fromU8 0)).2 })

/-- `Sparse::set(idx, val)`: `None` when out of range, otherwise
`self.data.insert(idx, val).or_else(|| Some(T::from(0)))` — the previous
value (or a synthesized zero) paired with the updated matrix. -/
def set {T : Type} [FromU8 T] {N M : Nat} (mat : Sparse T N M) (idx : Nat × Nat) (val : T) :
    Option T × Sparse T N M :=
  if !mat.is_in_range idx then (none, mat)
  else
    (match (mapInsert mat.data idx val).1 with
      | some v => some v
      | none => some (FromU8.fromU8 0),
     { mat with data := (mapInsert mat.data idx val).2 })

/-- `Sparse::shape()`: `(N, M)`. -/
def shape {T : Type} {N M : Nat} (_ : Sparse T N M) : Nat × Nat :=
  (N, M)

/-- `Sparse::is_square()`: `N == M`. -/
def is_square {T : Type} {N M : Nat} (_ : Sparse T N M) : Bool :=
  decide (N = M)

/-- `Sparse::apply(f)`: `self.data.values_mut().for_each(|e| *e = f(*e))` —
only entries already present in the map are touched. -/
def apply {T : Type} {N M : Nat} (mat : Sparse T N M) (f : T → T) : Sparse T N M :=
  { mat with data := mapValues f mat.data }

/-- `Sparse::scalar_mul(rhs)`: `self.apply(|e| e * rhs)`. -/
def scalar_mul {T : Type} [Mul T] {N M : Nat} (mat : Sparse T N M) (rhs : T) : Sparse T N M :=
  mat.apply (fun e => e * rhs)

/-- `Sparse::det()`: `todo!()` — always panics. -/
def det {T : Type} {N M : Nat} (_ : Sparse T N M) : PanicOr (Option T) :=
  .panic "not yet implemented"

/-- `Sparse::inv()`: `todo!()` — always panics. -/
def inv {T : Type} {N M : Nat} (_ : Sparse T N M) : PanicOr (Option (Sparse T N M)) :=
  .panic "not yet implemented"

/-- `FromIterator for Sparse` (`src/mats/sparse/traits.rs`): start from
`zeros()` and `set` every pair in order. -/
def fromList {T : Type} [FromU8 T] {N M : Nat} (l : List ((Nat × Nat) × T)) : Sparse T N M :=
  l.foldl (fun mat kv => (mat.set kv.1 kv.2).2) zeros

end Sparse

/-! ## Theorems about the claims -/

/-- Claim C1: the claim states that `Dense::get`/`Dense::get_mut` return
`Some` exactly when `i < n` and `j < m`.  The code checks only the flat
index `i * m + j` against the buffer length, so on the 2×3 matrix obtained
from `zeros(2,3)` by `set((1,0), 4.0)`, the out-of-bounds access
`get((0,3))` (and `get_mut((0,3))`) returns `Some(4.0)` — the entry stored
at `(1,0)` — even though `j = 3` is not `< m = 3`, contradicting the claim
and the method's own documentation. -/
theorem dense_get_flat_index_bug :
    (((Dense.zeros 2 3).set (1, 0) 4).2.get (0, 3) = some 4)
  ∧ (((Dense.zeros 2 3).set (1, 0) 4).2.get_mut (0, 3) = some 4)
  ∧ ¬(3 < 3) := by
  refine ⟨?_, ?_, by decide⟩ <;> rfl

/-- Claim C2: the claim states that `Diag::get` returns `Some` of the
diagonal value or zero exactly on indices with `i < n` and `j < m`.  The
code returns `Some` exactly when `i < data.len() = min(n,m)`, ignoring `j`:
on `Diag::zeros(2,3)` the out-of-bounds access `get((0,5))` returns
`Some(0.0)` although `j = 5 ≥ m = 3`, and on `Diag::zeros(3,2)` the
in-range access `get((2,1))` (with `2 < 3` and `1 < 2`) returns `None`
instead of the claimed zero. -/
theorem diag_get_flat_index_bug :
    ((Diag.zeros 2 3).get (0, 5) = some 0)
  ∧ ¬(5 < 3)
  ∧ ((Diag.zeros 3 2).get (2, 1) = none)
  ∧ (2 < 3 ∧ 1 < 2) := by
  exact ⟨rfl, by decide, rfl, by decide⟩

/-- Claim C3 (counterexample): the claim states that `det`/`inv` on the
dense and sparse representations yield a branchable "not supported" result
rather than a crash.  In the source all four methods are `todo!()` stubs,
which panic: evaluating them on concrete matrices yields a panic, not a
branchable value. -/
theorem det_inv_todo_cex :
    ((Dense.zeros 1 1).det.isPanic = true)
  ∧ ((Dense.zeros 1 1).inv.isPanic = true)
  ∧ ((Sparse.zeros : Sparse Entry 1 1).det.isPanic = true)
  ∧ ((Sparse.zeros : Sparse Entry 1 1).inv.isPanic = true) :=
  ⟨rfl, rfl, rfl, rfl⟩

/-- Claim C3 (amended): calling `det()` or `inv()` on the dense or sparse
representations always panics via `todo!()` ("not yet implemented") — a
crash, not a result the caller can branch on — for every matrix value. -/
theorem det_inv_todo (d : Dense) {N M : Nat} (s : Sparse Entry N M) :
    d.det = PanicOr.panic "not yet implemented"
  ∧ d.inv = PanicOr.panic "not yet implemented"
  ∧ s.det = PanicOr.panic "not yet implemented"
  ∧ s.inv = PanicOr.panic "not yet implemented" :=
  ⟨rfl, rfl, rfl, rfl⟩

/-- Claim C4: for each of the three representations, `scalar_mul(k)` equals
`apply(|e| e * k)` for every scalar `k`, and scalar multiplication is
linear: `scalar_mul(a)` followed by `scalar_mul(b)` equals a single
`scalar_mul(a * b)`, for all scalars `a`, `b` and all matrix values. -/
theorem scalar_mul_is_apply_and_linear (d : Dense) (g : Diag) {N M : Nat}
    (s : Sparse Entry N M) (a b k : Entry) :
    (d.scalar_mul k = d.apply (fun e => e * k))
  ∧ (g.scalar_mul k = g.apply (fun e => e * k))
  ∧ (s.scalar_mul k = s.apply (fun e => e * k))
  ∧ ((d.scalar_mul a).scalar_mul b = d.scalar_mul (a * b))
  ∧ ((g.scalar_mul a).scalar_mul b = g.scalar_mul (a * b))
  ∧ ((s.scalar_mul a).scalar_mul b = s.scalar_mul (a * b)) := by
  refine ⟨rfl, rfl, rfl, ?_, ?_, ?_⟩
  · simp [Dense.scalar_mul, Dense.apply, List.map_map, Function.comp, mul_assoc]
  · simp [Diag.scalar_mul, Diag.apply, List.map_map, Function.comp, mul_assoc]
  · simp [Sparse.scalar_mul, Sparse.apply, mapValues, List.map_map, Function.comp, mul_assoc]

/-- Claim C6: `Diag::inv()` returns `None` exactly when the matrix is not
square; on a square matrix it succeeds, replacing in place each nonzero
diagonal entry `e` by `1/e` and leaving zero entries zero; in particular
`from((5,5), [2,3,4])` has diagonal `[2,3,4,0,0]` and inverting it yields
the diagonal `[1/2, 1/3, 1/4, 0, 0]`. -/
theorem diag_inv_contract (mat : Diag) :
    (mat.inv = none ↔ mat.n ≠ mat.m)
  ∧ (mat.n = mat.m →
      mat.inv = some { mat with data := mat.data.map (fun e => if e ≠ 0 then 1 / e else 0) })
  ∧ (Diag.fromElems (5, 5) [2, 3, 4] = Except.ok ⟨[2, 3, 4, 0, 0], 5, 5⟩)
  ∧ ((Diag.mk [2, 3, 4, 0, 0] 5 5).inv = some ⟨[1/2, 1/3, 1/4, 0, 0], 5, 5⟩) := by
  refine ⟨?_, ?_, rfl, by norm_num [Diag.inv, Diag.is_square, Diag.apply]⟩
  · by_cases h : mat.n = mat.m <;> simp [Diag.inv, Diag.is_square, h]
  · intro h
    simp [Diag.inv, Diag.is_square, Diag.apply, h]

/-- Witness for `diag_inv_contract` at the concrete square matrix
`Diag::zeros(2, 2)` and the non-square `Diag::zeros(2, 3)`. -/
theorem diag_inv_contract_witness :
    ((Diag.zeros 2 3).inv = none ↔ (Diag.zeros 2 3).n ≠ (Diag.zeros 2 3).m)
  ∧ ((Diag.zeros 2 2).inv =
      some { Diag.zeros 2 2 with
             data := (Diag.zeros 2 2).data.map (fun e => if e ≠ 0 then 1 / e else 0) }) :=
  ⟨(diag_inv_contract (Diag.zeros 2 3)).1, (diag_inv_contract (Diag.zeros 2 2)).2.1 rfl⟩

/-- Claim C7: `Diag::det()` returns `None` exactly when `n ≠ m`; on every
square matrix it returns the product of all stored diagonal entries
(`fold(1.0, |a, b| a * b)` equals the list product), and
`ident(n).det() = Some(1)` for every `n`, including `n = 0`. -/
theorem diag_det_contract (mat : Diag) (n : Nat) :
    (mat.det = none ↔ mat.n ≠ mat.m)
  ∧ (mat.n = mat.m → mat.det = some mat.data.prod)
  ∧ ((Diag.ident n).det = some 1) := by
  refine ⟨?_, ?_, ?_⟩
  · by_cases h : mat.n = mat.m <;> simp [Diag.det, Diag.is_square, h]
  · intro h
    simp [Diag.det, Diag.is_square, h]
    rw [List.prod_eq_foldl]
  · simp [Diag.det, Diag.is_square, Diag.ident]
    rw [← List.prod_eq_foldl, List.prod_replicate, one_pow]

/-- Witness for `diag_det_contract` at `Diag::zeros(2, 2)` and `ident(3)`. -/
theorem diag_det_contract_witness :
    ((Diag.zeros 2 2).det = none ↔ (Diag.zeros 2 2).n ≠ (Diag.zeros 2 2).m)
  ∧ ((Diag.zeros 2 2).det = some (Diag.zeros 2 2).data.prod)
  ∧ ((Diag.ident 3).det = some 1) := by
  obtain ⟨h1, h2, h3⟩ := diag_det_contract (Diag.zeros 2 2) 3
  exact ⟨h1, h2 rfl, h3⟩

/-- Claim C8: `Diag::from((n, m), elems)` fails with the
"Invalid quantity of elements" error exactly when `elems.len() > min(n, m)`;
otherwise it succeeds and pads the diagonal with zeros up to length
`min(n, m)`; e.g. `from((4, 5), [1, 2, 3])` yields diagonal `[1, 2, 3, 0]`
with `get((3, 3)) = Some(0)`. -/
theorem diag_fromElems_contract (n m : Nat) (elems : List Entry) :
    ((∃ msg, Diag.fromElems (n, m) elems = Except.error msg) ↔ min n m < elems.length)
  ∧ (min n m < elems.length →
      Diag.fromElems (n, m) elems = Except.error "Invalid quantity of elements")
  ∧ (elems.length ≤ min n m →
      Diag.fromElems (n, m) elems =
        Except.ok ⟨elems ++ List.replicate (min n m - elems.length) 0, n, m⟩)
  ∧ (Diag.fromElems (4, 5) [1, 2, 3] = Except.ok ⟨[1, 2, 3, 0], 4, 5⟩)
  ∧ ((Diag.mk [1, 2, 3, 0] 4 5).get (3, 3) = some 0) := by
  refine ⟨?_, ?_, ?_, rfl, rfl⟩
  · rw [Diag.fromElems]
    by_cases h : elems.length > min n m
    · rw [if_pos h]
      simp
      omega
    · rw [if_neg h]
      simp
      omega
  · intro h
    simp [Diag.fromElems, h]
  · intro h
    rw [Diag.fromElems, if_neg (by omega)]

/-- Witness for `diag_fromElems_contract`: the overfull construction
`from((2, 2), [1, 2, 3])` fails and `from((2, 3), [7])` succeeds with a
zero-padded diagonal. -/
theorem diag_fromElems_contract_witness :
    (Diag.fromElems (2, 2) [1, 2, 3] = Except.error "Invalid quantity of elements")
  ∧ (Diag.fromElems (2, 3) [7] =
      Except.ok ⟨[7] ++ List.replicate (min 2 3 - [(7 : Entry)].length) 0, 2, 3⟩) :=
  ⟨(diag_fromElems_contract 2 2 [1, 2, 3]).2.1 (by decide),
   (diag_fromElems_contract 2 3 [7]).2.2.1 (by decide)⟩

/-! ### Helper lemmas about `listResize` and the association-list map -/

theorem listResize_length {α : Type} (l : List α) (sz : Nat) (fill : α) :
    (listResize l sz fill).length = sz := by
  simp [listResize]
  omega

theorem listResize_get_keep {α : Type} (l : List α) (sz : Nat) (fill : α) (k : Nat)
    (h1 : k < l.length) (h2 : k < sz) :
    (listResize l sz fill).get? k = l.get? k := by
  have hlt : k < (l.take sz).length := by
    simp [List.length_take]
    omega
  rw [listResize, List.get?_append hlt, List.get?_take h2]

theorem listResize_get_pad {α : Type} (l : List α) (sz : Nat) (fill : α) (k : Nat)
    (h1 : l.length ≤ k) (h2 : k < sz) :
    (listResize l sz fill).get? k = some fill := by
  have hlen : (l.take sz).length = l.length := by
    simp [List.length_take]
    omega
  rw [listResize, List.get?_append_right (by rw [hlen]; exact h1), hlen]
  simp only [List.get?_eq_getElem?, List.getElem?_replicate]
  rw [if_pos (by omega)]

theorem mapLookup_insert_self {T : Type} (data : List ((Nat × Nat) × T)) (key : Nat × Nat)
    (val : T) :
    mapLookup (mapInsert data key val).2 key = some val := by
  induction data with
  | nil => simp [mapInsert, mapLookup]
  | cons kv rest ih =>
    by_cases h : kv.1 = key
    · simp [mapInsert, h, mapLookup]
    · simp [mapInsert, h, mapLookup, ih]

theorem mapLookup_insert_ne {T : Type} (data : List ((Nat × Nat) × T)) (key k' : Nat × Nat)
    (val : T) (h : k' ≠ key) :
    mapLookup (mapInsert data key val).2 k' = mapLookup data k' := by
  induction data with
  | nil => simp [mapInsert, mapLookup, Ne.symm h]
  | cons kv rest ih =>
    by_cases hk : kv.1 = key
    · simp [mapInsert, hk, mapLookup, Ne.symm h]
    · simp only [mapInsert, if_neg hk, mapLookup]
      split <;> simp [ih]

theorem mapLookup_mapValues {T : Type} (f : T → T) (data : List ((Nat × Nat) × T))
    (k : Nat × Nat) :
    mapLookup (mapValues f data) k = (mapLookup data k).map f := by
  induction data with
  | nil => simp [mapValues, mapLookup]
  | cons kv rest ih =>
    simp only [mapValues] at ih ⊢
    by_cases h : kv.1 = k <;> simp [mapLookup, h, ih]

theorem fromU8_entry_zero : (FromU8.fromU8 0 : Entry) = 0 :=
  Nat.cast_zero

theorem Sparse.set_preserves_zero {T : Type} [FromU8 T] {N M : Nat} (mat : Sparse T N M)
    (idx : Nat × Nat) (val : T) :
    ((mat.set idx val).2).zero = mat.zero := by
  rw [Sparse.set]
  split <;> rfl

theorem Sparse.set_lookup_ne {T : Type} [FromU8 T] {N M : Nat} (mat : Sparse T N M)
    (idx k' : Nat × Nat) (val : T) (h : k' ≠ idx) :
    mapLookup ((mat.set idx val).2).data k' = mapLookup mat.data k' := by
  rw [Sparse.set]
  split
  · rfl
  · exact mapLookup_insert_ne mat.data idx k' val h

theorem Sparse.foldl_set_absent {T : Type} [FromU8 T] {N M : Nat}
    (l : List ((Nat × Nat) × T)) (k : Nat × Nat) (h : k ∉ l.map Prod.fst)
    (mat : Sparse T N M) :
    mapLookup (l.foldl (fun m kv => (m.set kv.1 kv.2).2) mat).data k = mapLookup mat.data k
  ∧ (l.foldl (fun m kv => (m.set kv.1 kv.2).2) mat).zero = mat.zero := by
  induction l generalizing mat with
  | nil => exact ⟨rfl, rfl⟩
  | cons kv rest ih =>
    simp only [List.map_cons, List.mem_cons] at h
    push_neg at h
    obtain ⟨h1, h2⟩ := h
    obtain ⟨ha, hb⟩ := ih h2 ((mat.set kv.1 kv.2).2)
    constructor
    · rw [List.foldl_cons, ha, Sparse.set_lookup_ne mat kv.1 k kv.2 h1]
    · rw [List.foldl_cons, hb, Sparse.set_preserves_zero]

/-- Claim C5: for the sparse matrix of shape `(N, M)`: `get` returns `None`
when `i ≥ N` or `j ≥ M`; on a matrix built from a pair list (starting from
`zeros()`, the `FromIterator` path), `get` returns zero for every in-range
cell whose key was never set; and `set((i, j), v)` on an in-range index
followed by `get((i, j))` round-trips exactly `v`. -/
theorem sparse_get_set_contract (N M i j : Nat) (v : Entry)
    (s : Sparse Entry N M) (pairs : List ((Nat × Nat) × Entry)) :
    (N ≤ i ∨ M ≤ j → s.get (i, j) = none)
  ∧ (i < N → j < M → (i, j) ∉ pairs.map Prod.fst →
      (Sparse.fromList pairs : Sparse Entry N M).get (i, j) = some 0)
  ∧ (i < N → j < M → ((s.set (i, j) v).2).get (i, j) = some v) := by
  refine ⟨?_, ?_, ?_⟩
  · intro h
    have hr : Sparse.is_in_range s (i, j) = false := by
      simp [Sparse.is_in_range]
      omega
    simp [Sparse.get, hr]
  · intro hi hj habs
    obtain ⟨ha, hb⟩ :=
      Sparse.foldl_set_absent pairs (i, j) habs (Sparse.zeros : Sparse Entry N M)
    rw [Sparse.fromList]
    simp only [Sparse.zeros, fromU8_entry_zero] at ha hb ⊢
    simp only [mapLookup] at ha
    simp [Sparse.get, Sparse.is_in_range, hi, hj, ha, hb]
  · intro hi hj
    have hr : Sparse.is_in_range s (i, j) = true := by
      simp [Sparse.is_in_range, hi, hj]
    simp [Sparse.set, hr, Sparse.get, Sparse.is_in_range, hi, hj, mapLookup_insert_self]

/-- Witness for `sparse_get_set_contract` on a concrete 2×3 sparse matrix. -/
theorem sparse_get_set_contract_witness :
    ((Sparse.zeros : Sparse Entry 2 3).get (2, 0) = none)
  ∧ ((Sparse.fromList [((0, 0), 7)] : Sparse Entry 2 3).get (1, 2) = some 0)
  ∧ ((((Sparse.zeros : Sparse Entry 2 3).set (1, 2) 5).2).get (1, 2) = some 5) := by
  refine ⟨?_, ?_, ?_⟩
  · exact (sparse_get_set_contract 2 3 2 0 5 Sparse.zeros []).1 (Or.inl (le_refl 2))
  · exact (sparse_get_set_contract 2 3 1 2 5 Sparse.zeros [((0, 0), 7)]).2.1
      (by omega) (by omega) (by decide)
  · exact (sparse_get_set_contract 2 3 1 2 5 Sparse.zeros [((0, 0), 7)]).2.2
      (by omega) (by omega)

/-- Claim C9: `Dense::reshape((n', m'))` always sets the shape to
`(n', m')` and resizes the flat backing storage to exactly `n' * m'`
entries; every flat position `k < min(n*m, n'*m')` keeps its old value and
every newly exposed position holds zero (flat-resize semantics); and there
is a matrix and shape sequence (here `2×2 → 1×2 → 2×2`) for which
reshaping away and back does not restore the original entries. -/
theorem dense_reshape_contract (mat : Dense) (s' : Nat × Nat) (k : Nat)
    (hinv : mat.data.length = mat.n * mat.m) :
    ((mat.reshape s').n = s'.1)
  ∧ ((mat.reshape s').m = s'.2)
  ∧ ((mat.reshape s').data.length = s'.1 * s'.2)
  ∧ (k < min (mat.n * mat.m) (s'.1 * s'.2) →
      (mat.reshape s').data.get? k = mat.data.get? k)
  ∧ (mat.n * mat.m ≤ k → k < s'.1 * s'.2 →
      (mat.reshape s').data.get? k = some 0)
  ∧ ((((Dense.zeros 2 2).set (1, 0) 3).2.reshape (1, 2)).reshape (2, 2)
      ≠ ((Dense.zeros 2 2).set (1, 0) 3).2) := by
  refine ⟨rfl, rfl, listResize_length _ _ _, ?_, ?_, by decide⟩
  · intro hk
    exact listResize_get_keep mat.data _ 0 k (by omega) (by omega)
  · intro h1 h2
    exact listResize_get_pad mat.data _ 0 k (by omega) h2

/-- Witness for `dense_reshape_contract`: reshaping `zeros(2,2)` to `(3,2)`
keeps flat position 1 and zero-fills flat position 5. -/
theorem dense_reshape_contract_witness :
    (((Dense.zeros 2 2).reshape (3, 2)).data.get? 1 = (Dense.zeros 2 2).data.get? 1)
  ∧ (((Dense.zeros 2 2).reshape (3, 2)).data.get? 5 = some 0) :=
  ⟨(dense_reshape_contract (Dense.zeros 2 2) (3, 2) 1 (by decide)).2.2.2.1 (by decide),
   (dense_reshape_contract (Dense.zeros 2 2) (3, 2) 5 (by decide)).2.2.2.2.1
     (by decide) (by decide)⟩

/-- Claim C10: `Sparse::apply(f)` mutates only the entries present in the
backing map: every in-range index absent from the map still reads as the
shared zero after `apply f` (no constraint on `f 0`), unlike the dense and
diagonal representations where `apply` rewrites every cell of the stored
buffer. -/
theorem sparse_apply_frame (N M i j : Nat) (f : Entry → Entry)
    (s : Sparse Entry N M) (d : Dense) (g : Diag) :
    (i < N → j < M → mapLookup s.data (i, j) = none →
        (s.apply f).get (i, j) = some s.zero ∧ s.get (i, j) = some s.zero)
  ∧ ((d.apply f).data = d.data.map f)
  ∧ ((g.apply f).data = g.data.map f) := by
  refine ⟨?_, rfl, rfl⟩
  intro hi hj habs
  have h2 : mapLookup (mapValues f s.data) (i, j) = none := by
    rw [mapLookup_mapValues, habs]
    rfl
  constructor
  · simp [Sparse.apply, Sparse.get, Sparse.is_in_range, hi, hj, h2]
  · simp [Sparse.get, Sparse.is_in_range, hi, hj, habs]

/-- Witness for `sparse_apply_frame` with `f = (· + 1)` (so `f 0 ≠ 0`) on a
2×2 sparse matrix holding a single explicit entry at `(0, 0)`. -/
theorem sparse_apply_frame_witness :
    (((Sparse.fromList [((0, 0), 1)] : Sparse Entry 2 2).apply (fun e => e + 1)).get (1, 1)
        = some (Sparse.fromList [((0, 0), 1)] : Sparse Entry 2 2).zero)
  ∧ ((fun e : Entry => e + 1) 0 ≠ 0) := by
  refine ⟨?_, by norm_num⟩
  exact ((sparse_apply_frame 2 2 1 1 (fun e => e + 1)
      (Sparse.fromList [((0, 0), 1)]) (Dense.zeros 1 1) (Diag.zeros 1 1)).1
      (by omega) (by omega) (by decide)).1

end MatLib
